import Mathlib

/-!
Verification of the AetherMCP core against its specification.

This file gives a shallow embedding, in Lean 4, of the parts of the
aethermcp Python package that the specification's claims are about:

- the provenance ledger (aethermcp/core/provenance.py),
- the kernel's plan validation and plan execution control flow
  (aethermcp/core/kernel.py, aethermcp/core/orchestrator.py),
- the protocol handler's retry loop (aethermcp/core/protocol.py),
- the cognitive guardian (aethermcp/governance/cognitive_guardian.py).

Modelling conventions:

- Python floats are modelled as rationals, and as reals where a square
  root occurs (the statistics.stdev call in the guardian).
- The SHA-256 digest of the deterministic JSON serialization of a node
  is modelled as the serialized content itself (the HashContent
  structure): the digest is treated as injective, which abstracts
  collision-freeness of SHA-256.
- datetime timestamps are modelled as naturals supplied by the caller;
  uuid4 identifiers are modelled as identifier arguments supplied by
  the caller (they play no role beyond being names).
- Opaque key-to-value data payloads are modelled as association lists
  of strings; Python dict semantics (replace on existing key, append
  on new key, preserve insertion order) are modelled explicitly.
- Raised exceptions are modelled with Except; asynchronous network
  effects are modelled by oracle functions giving each attempt's or
  each step's outcome.
-/

namespace AetherMCP

/-- Opaque key-to-value data payload of a provenance node. -/
abbrev Payload := List (String × String)

/-- Deterministic serialization content of a provenance node, mirroring
the content dictionary built by ProvenanceEngine compute-hash: node id,
node type, timestamp, data payload, and the sorted parent id list. The
SHA-256 digest of its JSON dump is modelled as this content itself
(injective-digest abstraction). -/
structure HashContent where
  node_id : String
  node_type : String
  timestamp : Nat
  data : Payload
  parent_ids : List String
deriving DecidableEq, Inhabited, Repr

/-- A node in the provenance DAG (types.ProvenanceNode). -/
structure ProvenanceNode where
  node_id : String
  node_type : String
  timestamp : Nat
  data : Payload
  parent_ids : List String
  hash : HashContent
deriving DecidableEq, Inhabited, Repr

/-- Complete provenance chain for a session (types.ProvenanceChain). -/
structure ProvenanceChain where
  session_id : String
  nodes : List ProvenanceNode
  root_hash : HashContent
  created_at : Nat
deriving DecidableEq, Inhabited, Repr

/-- The provenance engine state: the session-id-keyed dictionary of
chains (ProvenanceEngine chains field). -/
structure ProvenanceEngine where
  chains : List (String × ProvenanceChain)
deriving DecidableEq, Inhabited, Repr

/-- Python dict read: value of the first (unique) binding of a key. -/
def dictGet {α : Type} (d : List (String × α)) (k : String) : Option α :=
  (d.find? (fun kv => kv.1 == k)).map (·.2)

/-- Python dict write: replace the binding in place if the key exists,
append it otherwise. -/
def dictSet {α : Type} : List (String × α) → String → α → List (String × α)
  | [], k, v => [(k, v)]
  | kv :: rest, k, v =>
    if kv.1 == k then (k, v) :: rest else kv :: dictSet rest k v

/-- Python dict del: remove the binding of a key. -/
def dictDel {α : Type} (d : List (String × α)) (k : String) : List (String × α) :=
  d.filter (fun kv => kv.1 != k)

/-- Lexicographic comparison of character lists by code point, the
order Python sorted uses on strings. -/
def charListLe : List Char → List Char → Bool
  | [], _ => true
  | _ :: _, [] => false
  | a :: as, b :: bs =>
    if a.toNat < b.toNat then true
    else if b.toNat < a.toNat then false
    else charListLe as bs

/-- Lexicographic comparison of strings by code point. -/
def strLe (a b : String) : Bool := charListLe a.data b.data

/-- Insert a string into a sorted list of strings. -/
def insertSorted (s : String) : List String → List String
  | [] => [s]
  | t :: ts => if strLe s t then s :: t :: ts else t :: insertSorted s ts

/-- Sort a list of strings (models Python sorted on parent ids). -/
def sortStrings : List String → List String
  | [] => []
  | s :: ss => insertSorted s (sortStrings ss)

/-- ProvenanceEngine compute-hash: the deterministic content over which
the SHA-256 digest is taken; the digest itself is modelled as the
content (injective-digest abstraction). The stored hash field of the
node is not part of the content. -/
def compute_hash (n : ProvenanceNode) : HashContent :=
  { node_id := n.node_id
    node_type := n.node_type
    timestamp := n.timestamp
    data := n.data
    parent_ids := sortStrings n.parent_ids }

/-- Build a node and stamp it with its computed hash, as every creation
site in provenance.py does (construct, then assign the hash field). -/
def mkNode (nid nt : String) (ts : Nat) (data : Payload)
    (parents : List String) : ProvenanceNode :=
  let n0 : ProvenanceNode :=
    { node_id := nid, node_type := nt, timestamp := ts, data := data
      parent_ids := parents, hash := default }
  { n0 with hash := compute_hash n0 }

/-- ProvenanceEngine.create_session: build the genesis node, seed a new
chain keyed by the session id, and store it. The session id and the
timestamp are arguments (uuid4 and utcnow in the source). Note the
source never checks whether the id is already in use: the dictionary
write silently replaces any existing chain. -/
def create_session (e : ProvenanceEngine) (sid : String) (ts : Nat) :
    String × ProvenanceEngine :=
  let genesis := mkNode (sid ++ "_genesis") "genesis" ts
    [("session_id", sid), ("created_at", toString ts)] []
  let chain : ProvenanceChain :=
    { session_id := sid, nodes := [genesis], root_hash := genesis.hash
      created_at := ts }
  (sid, { chains := dictSet e.chains sid chain })

/-- ProvenanceEngine add-node (the shared body of record_intent,
record_plan, record_step and record_result): raise ValueError if the
session is untracked, otherwise append a freshly hashed node with the
single given parent id. The source performs no check that the parent id
exists in the chain. -/
def addNode (e : ProvenanceEngine) (sid nt : String) (data : Payload)
    (parent_id nid : String) (ts : Nat) :
    Except String (String × ProvenanceEngine) :=
  match dictGet e.chains sid with
  | none => .error ("Session " ++ sid ++ " not found")
  | some chain =>
    let node := mkNode nid nt ts data [parent_id]
    .ok (nid, { chains := dictSet e.chains sid
                  { chain with nodes := chain.nodes ++ [node] } })

/-- ProvenanceEngine.record_intent: parent defaults to the genesis id. -/
def record_intent (e : ProvenanceEngine) (sid : String) (data : Payload)
    (parent_id : Option String) (nid : String) (ts : Nat) :
    Except String (String × ProvenanceEngine) :=
  addNode e sid "intent" data (parent_id.getD (sid ++ "_genesis")) nid ts

/-- ProvenanceEngine.record_plan. -/
def record_plan (e : ProvenanceEngine) (sid : String) (data : Payload)
    (parent_id nid : String) (ts : Nat) :
    Except String (String × ProvenanceEngine) :=
  addNode e sid "plan" data parent_id nid ts

/-- ProvenanceEngine.record_step. -/
def record_step (e : ProvenanceEngine) (sid : String) (data : Payload)
    (parent_id nid : String) (ts : Nat) :
    Except String (String × ProvenanceEngine) :=
  addNode e sid "step" data parent_id nid ts

/-- ProvenanceEngine.record_result. -/
def record_result (e : ProvenanceEngine) (sid : String) (data : Payload)
    (parent_id nid : String) (ts : Nat) :
    Except String (String × ProvenanceEngine) :=
  addNode e sid "result" data parent_id nid ts

/-- ProvenanceEngine.record_synthesis: like add-node but with a list of
parent ids; again no check that the parents exist. -/
def record_synthesis (e : ProvenanceEngine) (sid : String) (data : Payload)
    (parent_ids : List String) (nid : String) (ts : Nat) :
    Except String (String × ProvenanceEngine) :=
  match dictGet e.chains sid with
  | none => .error ("Session " ++ sid ++ " not found")
  | some chain =>
    let node := mkNode nid "synthesis" ts data parent_ids
    .ok (nid, { chains := dictSet e.chains sid
                  { chain with nodes := chain.nodes ++ [node] } })

/-- Per-node check of ProvenanceEngine.verify_chain: the stored hash
must equal the recomputed hash and every parent reference must resolve
in the same chain. -/
def nodeOk (nodes : List ProvenanceNode) (n : ProvenanceNode) : Bool :=
  decide (n.hash = compute_hash n) &&
    n.parent_ids.all (fun pid => nodes.any (fun m => decide (m.node_id = pid)))

/-- Chain-level body of ProvenanceEngine.verify_chain: every node
passes nodeOk and, when the chain is nonempty, the first node's hash
equals the stored root hash. The source returns False at the first
failing check, which coincides with this conjunction as a boolean
result. -/
def chainVerifies (chain : ProvenanceChain) : Bool :=
  chain.nodes.all (nodeOk chain.nodes) &&
    (match chain.nodes with
     | [] => true
     | g :: _ => decide (g.hash = chain.root_hash))

/-- ProvenanceEngine.verify_chain: false for untracked sessions,
otherwise the chain-level verification. -/
def verify_chain (e : ProvenanceEngine) (sid : String) : Bool :=
  match dictGet e.chains sid with
  | none => false
  | some chain => chainVerifies chain

/-- ProvenanceEngine.import_chain: the argument models the outcome of
parsing the chain document (the pydantic constructor call, whose
exception is caught and turned into a false result). On a parseable
document the chain is stored first, then verified; on verification
failure the stored entry is deleted and false is returned. -/
def import_chain (e : ProvenanceEngine)
    (chain_data : Except String ProvenanceChain) : Bool × ProvenanceEngine :=
  match chain_data with
  | .error _ => (false, e)
  | .ok chain =>
    let e1 : ProvenanceEngine := { chains := dictSet e.chains chain.session_id chain }
    if verify_chain e1 chain.session_id then (true, e1)
    else (false, { chains := dictDel e1.chains chain.session_id })

/-- Node lookup dictionary built by ProvenanceEngine.get_node_lineage:
a Python dict comprehension keeps the last node for a duplicated id. -/
def nodeMap (nodes : List ProvenanceNode) (nid : String) : Option ProvenanceNode :=
  nodes.reverse.find? (fun n => n.node_id == nid)

/-- Loop body of ProvenanceEngine.get_node_lineage: pop the head of the
queue, skip it if already visited, otherwise mark it visited and, if it
resolves, append it to the lineage and enqueue its parents. The fuel
argument bounds the number of pops; every iteration pops one element
and each resolved id enqueues its parents exactly once, so a fuel of
one plus the chain's node count plus the total number of parent
references never runs out. -/
def lineageLoop (nm : String → Option ProvenanceNode) :
    Nat → List String → List String → List ProvenanceNode → List ProvenanceNode
  | 0, _, _, lineage => lineage
  | _ + 1, [], _, lineage => lineage
  | fuel + 1, current :: queue, visited, lineage =>
    if current ∈ visited then lineageLoop nm fuel queue visited lineage
    else
      match nm current with
      | some node =>
        lineageLoop nm fuel (queue ++ node.parent_ids) (current :: visited)
          (lineage ++ [node])
      | none => lineageLoop nm fuel queue (current :: visited) lineage

/-- Fuel sufficient for the lineage loop on a given chain. -/
def lineageFuel (chain : ProvenanceChain) : Nat :=
  1 + chain.nodes.length + (chain.nodes.map (fun n => n.parent_ids.length)).sum

/-- ProvenanceEngine.get_node_lineage: breadth-first walk backwards
from the node through parent edges, deduplicating by first visit, then
reverse the visit order. -/
def get_node_lineage (e : ProvenanceEngine) (sid nid : String) :
    List ProvenanceNode :=
  match dictGet e.chains sid with
  | none => []
  | some chain =>
    (lineageLoop (nodeMap chain.nodes) (lineageFuel chain) [nid] [] []).reverse

/-! Kernel and orchestrator (kernel.py, orchestrator.py, types.py). -/

/-- Status of a task in the orchestration pipeline (types.TaskStatus). -/
inductive TaskStatus
  | pending
  | in_progress
  | completed
  | failed
  | cancelled
deriving DecidableEq, Inhabited, Repr

/-- Execution modes for the orchestrator (types.ExecutionMode). -/
inductive ExecutionMode
  | narrow
  | freefield
deriving DecidableEq, Inhabited, Repr

/-- Parsed user intent (types.UserIntent); monetary fields are
rationals (floats in the source). -/
structure UserIntent where
  raw_input : String
  primary_objective : String
  domain : String
  constraints : List String
  success_criteria : List String
  budget : Option ℚ
  mode : ExecutionMode
deriving DecidableEq, Inhabited, Repr

/-- A single step in the orchestration plan (types.OrchestrationStep). -/
structure OrchestrationStep where
  step_id : String
  description : String
  server_name : String
  tool_name : String
  parameters : Payload
  dependencies : List String
  status : TaskStatus
  parallel_group : Option Int
deriving DecidableEq, Inhabited, Repr

/-- Execution plan (types.OrchestrationPlan). -/
structure OrchestrationPlan where
  intent : UserIntent
  steps : List OrchestrationStep
  estimated_cost : ℚ
  estimated_time : ℚ
  confidence : ℚ
  templates_used : List String
deriving DecidableEq, Inhabited, Repr

/-- External server specification (types.MCPServerSpec), reduced to the
fields the modelled core reads. -/
structure MCPServerSpec where
  name : String
  endpoint : String
  cost_per_call : ℚ
deriving DecidableEq, Inhabited, Repr

/-- The tool registry's server dictionary (registry.ToolRegistry). -/
abbrev Registry := List (String × MCPServerSpec)

/-- ToolRegistry.get_server: dictionary lookup by name. -/
def get_server (reg : Registry) (name : String) : Option MCPServerSpec :=
  dictGet reg name

/-- The three plan-validation failure reasons produced by
Orchestrator.validate_plan, modelled structurally (the source renders
them as formatted message strings). -/
inductive ValidationError
  | budgetExceeded (estimated budget : ℚ)
  | unknownServer (server : String)
  | danglingDependency (dep step : String)
deriving DecidableEq, Repr

/-- Python truthiness of an optional float: None and 0.0 are falsy.
The budget check in validate_plan is guarded by this truthiness, so a
budget of exactly 0.0 is never checked. -/
def pyTruthy : Option ℚ → Bool
  | none => false
  | some b => decide (b ≠ 0)

/-- First dangling dependency in plan order: for each step in order,
the first dependency id that is not among the plan's step ids. -/
def findDangling (step_ids : List String) :
    List OrchestrationStep → Option (String × String)
  | [] => none
  | s :: rest =>
    match s.dependencies.find? (fun d => !(step_ids.contains d)) with
    | some d => some (d, s.step_id)
    | none => findDangling step_ids rest

/-- Orchestrator.validate_plan: in order and first failure wins, check
the (truthy) budget against the estimated cost, then that every step's
server resolves in the registry, then that every dependency id is a
step id of the same plan. -/
def validate_plan (reg : Registry) (plan : OrchestrationPlan) :
    Bool × Option ValidationError :=
  if pyTruthy plan.intent.budget &&
      decide (plan.intent.budget.getD 0 < plan.estimated_cost) then
    (false, some (.budgetExceeded plan.estimated_cost (plan.intent.budget.getD 0)))
  else
    match plan.steps.find? (fun s => (get_server reg s.server_name).isNone) with
    | some s => (false, some (.unknownServer s.server_name))
    | none =>
      match findDangling (plan.steps.map (·.step_id)) plan.steps with
      | some (d, stepId) => (false, some (.danglingDependency d stepId))
      | none => (true, none)

/-- Response from an MCP server (types.MCPResponse); the result payload
is modelled as an optional string. -/
structure MCPResponse where
  request_id : String
  server_name : String
  tool_name : String
  result : Option String
  error : Option String
  cost : ℚ
deriving DecidableEq, Inhabited, Repr

/-- Accumulator loop of the grouping pass in AetherMCP execute-plan:
partition the step list into maximal runs of consecutive steps sharing
the same parallel_group value, starting from the current group id None
and an empty current group exactly as the source does. -/
def groupSteps : Option Int → List OrchestrationStep →
    List OrchestrationStep → List (List OrchestrationStep)
  | _, current, [] => if current.isEmpty then [] else [current]
  | cur, current, s :: rest =>
    if s.parallel_group ≠ cur then
      (if current.isEmpty then ([] : List (List OrchestrationStep))
       else [current]) ++ groupSteps s.parallel_group [s] rest
    else groupSteps cur (current ++ [s]) rest

/-- The sequential groups of a plan's step list. -/
def sequential_groups (steps : List OrchestrationStep) :
    List (List OrchestrationStep) :=
  groupSteps none [] steps

/-- Outcome of one step task as collected by asyncio.gather with
return_exceptions=True: either the exception raised inside the task
(as its message) or the MCPResponse the task returned. The network
round trip and the per-step provenance recording inside the task are
absorbed into this oracle. -/
abbrev StepOracle := OrchestrationStep → Except String MCPResponse

/-- Result-processing loop over one settled group in AetherMCP
execute-plan: an exception outcome marks the step failed, any returned
response marks it completed and contributes its result to the
deliverables and its cost to the total, regardless of the response's
error field. -/
def processGroup (outcome : StepOracle) :
    List OrchestrationStep → List (String × Option String) → ℚ →
    List (OrchestrationStep × TaskStatus) × List (String × Option String) × ℚ
  | [], deliverables, total_cost => ([], deliverables, total_cost)
  | s :: rest, deliverables, total_cost =>
    match outcome s with
    | .error _ =>
      let r := processGroup outcome rest deliverables total_cost
      ((s, .failed) :: r.1, r.2)
    | .ok resp =>
      let r := processGroup outcome rest
        (dictSet deliverables s.step_id resp.result) (total_cost + resp.cost)
      ((s, .completed) :: r.1, r.2)

/-- Group-sequential driver of AetherMCP execute-plan: groups run one
after another, threading deliverables and total cost. -/
def executePlanGroups (outcome : StepOracle) :
    List (List OrchestrationStep) → List (String × Option String) → ℚ →
    List (OrchestrationStep × TaskStatus) × List (String × Option String) × ℚ
  | [], deliverables, total_cost => ([], deliverables, total_cost)
  | g :: gs, deliverables, total_cost =>
    let r1 := processGroup outcome g deliverables total_cost
    let r2 := executePlanGroups outcome gs r1.2.1 r1.2.2
    (r1.1 ++ r2.1, r2.2)

/-- AetherMCP execute-plan over a plan's steps: partition into
sequential groups, run them in order, and return the per-step final
statuses (in traversal order), the deliverables and the total cost. -/
def execute_plan (outcome : StepOracle) (steps : List OrchestrationStep) :
    List (OrchestrationStep × TaskStatus) × List (String × Option String) × ℚ :=
  executePlanGroups outcome (sequential_groups steps) [] 0

/-- Result of executing an orchestration plan (types.ExecutionResult),
reduced to the fields the claims read. -/
structure ExecutionResult where
  session_id : String
  deliverables : List (String × Option String)
  provenance : Option ProvenanceChain
  cost : ℚ
  confidence : ℚ
  status : TaskStatus
  error : Option ValidationError
deriving DecidableEq, Inhabited, Repr

/-- The environment of one AetherMCP.execute_async run: the parsed
intent the orchestrator returns, the generated plan, and the oracle
giving each step task's outcome. Intent parsing and plan generation
are external collaborators per the specification's scope. -/
structure KernelEnv where
  parsed_intent : UserIntent
  plan : OrchestrationPlan
  outcome : StepOracle

/-- Data payload recorded for the intent node (model_dump of the
parsed intent, modelled as a key-to-value summary). -/
def intentPayload (i : UserIntent) : Payload :=
  [("raw_input", i.raw_input), ("primary_objective", i.primary_objective),
   ("domain", i.domain)]

/-- Data payload recorded for the plan node (model_dump of the plan,
modelled as a key-to-value summary). -/
def planPayload (p : OrchestrationPlan) : Payload :=
  [("num_steps", toString p.steps.length),
   ("confidence", toString p.confidence.num ++ "/" ++ toString p.confidence.den)]

/-- AetherMCP.execute_async: create a session (genesis node), record
the intent node, validate the plan and abort with a failed result when
validation fails, otherwise record the plan node and execute the plan.
The session id and node ids are arguments (uuid4 in the source); the
per-step provenance recording on the success path is absorbed into the
step oracle. The error branches of the two record calls model the
top-level exception handler, which returns a failed result; both are
unreachable because the session exists when they run. -/
def execute_async (e : ProvenanceEngine) (reg : Registry) (env : KernelEnv)
    (sid intentNid planNid : String) : ExecutionResult × ProvenanceEngine :=
  let r0 := create_session e sid 0
  let e1 := r0.2
  match record_intent e1 sid (intentPayload env.parsed_intent) none intentNid 1 with
  | .error _ =>
    ({ session_id := sid, deliverables := [], provenance := dictGet e1.chains sid
       cost := 0, confidence := 0, status := .failed, error := none }, e1)
  | .ok (intent_node_id, e2) =>
    match validate_plan reg env.plan with
    | (false, err) =>
      ({ session_id := sid, deliverables := [], provenance := dictGet e2.chains sid
         cost := 0, confidence := 0, status := .failed, error := err }, e2)
    | (true, _) =>
      match record_plan e2 sid (planPayload env.plan) intent_node_id planNid 2 with
      | .error _ =>
        ({ session_id := sid, deliverables := [], provenance := dictGet e2.chains sid
           cost := 0, confidence := 0, status := .failed, error := none }, e2)
      | .ok (_, e3) =>
        let r := execute_plan env.outcome env.plan.steps
        ({ session_id := sid, deliverables := r.2.1
           provenance := dictGet e3.chains sid, cost := r.2.2
           confidence := env.plan.confidence, status := .completed
           error := none }, e3)

/-! Protocol handler (protocol.py). -/

/-- The Response built by ProtocolHandler.send_request when the final
attempt has failed: no result, the last error message, and the cost
field left at its default of zero. -/
def mkErrorResponse (rid server tool msg : String) : MCPResponse :=
  { request_id := rid, server_name := server, tool_name := tool
    result := none, error := some msg, cost := 0 }

/-- Retry loop of ProtocolHandler.send_request. The oracle gives each
attempt's outcome (a response, or the exception message of a transport
or protocol failure). The second numeric argument is the number of
loop iterations left (maxRetries minus attempt); the function returns
the response, the number of attempts made, and the list of backoff
waits (in time units) slept between consecutive attempts, each wait
being two to the power of the zero-based attempt index that failed. -/
def sendLoop (env : Nat → Except String MCPResponse) (maxRetries : Nat)
    (rid server tool : String) : Nat → Nat → MCPResponse × Nat × List Nat
  | attempt, 0 => (mkErrorResponse rid server tool "Max retries exceeded", attempt, [])
  | attempt, remaining + 1 =>
    match env attempt with
    | .ok resp => (resp, attempt + 1, [])
    | .error msg =>
      if attempt < maxRetries - 1 then
        let r := sendLoop env maxRetries rid server tool (attempt + 1) remaining
        (r.1, r.2.1, 2 ^ attempt :: r.2.2)
      else (mkErrorResponse rid server tool msg, attempt + 1, [])

/-- ProtocolHandler.send_request: run the retry loop from attempt zero
with maxRetries iterations available. Failure is returned as response
data, never raised: the return type carries no exception. -/
def send_request (env : Nat → Except String MCPResponse) (maxRetries : Nat)
    (rid server tool : String) : MCPResponse × Nat × List Nat :=
  sendLoop env maxRetries rid server tool 0 maxRetries

/-! Cognitive guardian (governance/cognitive_guardian.py). -/

/-- Alert severity levels (types.AlertLevel). -/
inductive AlertLevel
  | info
  | warning
  | critical
deriving DecidableEq, Inhabited, Repr

/-- Alert from the governance system (types.GovernanceAlert), reduced
to the fields the claims read; the deviation value carried in the
source's metadata dictionary is a real number here. -/
structure GovernanceAlert where
  level : AlertLevel
  source : String
  requires_action : Bool
  deviation : ℝ

/-- One recorded operator decision: its type, and the numeric value of
the amount key of its parameter dictionary when present. Only the
amount parameter is ever read by the guardian. -/
structure DecisionRecord where
  decision_type : String
  amount : Option ℚ
deriving DecidableEq, Inhabited, Repr

/-- Behavioral profile of an operator (types.OperatorProfile) with its
pydantic defaults: empty selection patterns, risk tolerance one half,
zero baseline deviation. -/
structure OperatorProfile where
  operator_id : String
  selection_patterns : List (String × ℚ)
  risk_tolerance : ℚ
  baseline_deviation : ℚ
deriving DecidableEq, Inhabited, Repr

/-- A fresh operator profile with the source's defaults. -/
def mkProfile (op : String) : OperatorProfile :=
  { operator_id := op, selection_patterns := [], risk_tolerance := 1/2
    baseline_deviation := 0 }

/-- CognitiveGuardian state: operator id, profile, and the append-only
decision history (newest last). The alert log kept by the source is
not part of the modelled state; check_anomaly is modelled as the pure
computation of the alert it returns and appends. -/
structure CognitiveGuardian where
  operator_id : String
  profile : OperatorProfile
  history : List DecisionRecord
deriving DecidableEq, Inhabited, Repr

/-- A fresh guardian for an operator. -/
def mkGuardian (op : String) : CognitiveGuardian :=
  { operator_id := op, profile := mkProfile op, history := [] }

/-- CognitiveGuardian update-profile: bump the selection count of the
decision type, and for a budget_approval decision carrying an amount,
move the risk tolerance by exponential moving average with smoothing
factor one tenth towards min(amount/1000, 1). Note the source's
normalization applies min only: there is no lower clamp at zero. -/
def update_profile (p : OperatorProfile) (decision_type : String)
    (amount : Option ℚ) : OperatorProfile :=
  let pats :=
    if p.selection_patterns.any (fun kv => kv.1 == decision_type) then
      p.selection_patterns.map
        (fun kv => if kv.1 = decision_type then (kv.1, kv.2 + 1) else kv)
    else p.selection_patterns ++ [(decision_type, 1)]
  let p1 := { p with selection_patterns := pats }
  if decision_type = "budget_approval" then
    match amount with
    | some a =>
      let normalized := min (a / 1000) 1
      { p1 with risk_tolerance :=
          (1 - 1/10) * p1.risk_tolerance + (1/10) * normalized }
    | none => p1
  else p1

/-- CognitiveGuardian.record_decision: append to the history and update
the profile. -/
def record_decision (g : CognitiveGuardian) (decision_type : String)
    (amount : Option ℚ) : CognitiveGuardian :=
  { g with
    history := g.history ++ [{ decision_type := decision_type, amount := amount }]
    profile := update_profile g.profile decision_type amount }

/-- Record a sequence of decisions in order. -/
def record_all (g : CognitiveGuardian) (ds : List (String × Option ℚ)) :
    CognitiveGuardian :=
  ds.foldl (fun g d => record_decision g d.1 d.2) g

/-- Number of historical decisions of a given type. -/
def historicalCount (g : CognitiveGuardian) (decision_type : String) : Nat :=
  (g.history.filter (fun r => r.decision_type == decision_type)).length

/-- The historical budget_approval amounts, a missing amount parameter
contributing zero (the dictionary get with default zero). -/
def historical_amounts (g : CognitiveGuardian) : List ℚ :=
  (g.history.filter (fun r => r.decision_type == "budget_approval")).map
    (fun r => r.amount.getD 0)

/-- statistics.mean: the arithmetic mean. -/
def listMean (l : List ℚ) : ℚ := l.sum / l.length

/-- The sample variance with Bessel's correction, whose square root is
statistics.stdev. -/
def sampleVariance (l : List ℚ) : ℚ :=
  (l.map (fun x => (x - listMean l) ^ 2)).sum / ((l.length : ℚ) - 1)

/-- The standard deviation used by calculate-deviation: the sample
standard deviation when at least two samples exist, floored to one
tenth of the mean otherwise. -/
noncomputable def stdevOrFloor (l : List ℚ) : ℝ :=
  if 1 < l.length then Real.sqrt ((sampleVariance l : ℚ) : ℝ)
  else ((listMean l * (1/10) : ℚ) : ℝ)

section
open Classical

/-- CognitiveGuardian calculate-deviation: a decision type with zero
prior occurrences scores a fixed three halves; a budget_approval
decision carrying an amount scores the distance of the amount from the
historical mean in units of the (floored) standard deviation, provided
that standard deviation is positive; everything else keeps the initial
deviation of zero. -/
noncomputable def calculate_deviation (g : CognitiveGuardian)
    (decision_type : String) (amount : Option ℚ) : ℝ :=
  if historicalCount g decision_type = 0 then 3/2
  else if decision_type = "budget_approval" ∧ amount.isSome then
    let amounts := historical_amounts g
    if amounts.isEmpty then 0
    else
      let s := stdevOrFloor amounts
      if 0 < s then |((amount.getD 0 : ℚ) : ℝ) - ((listMean amounts : ℚ) : ℝ)| / s
      else 0
  else 0

/-- CognitiveGuardian.check_anomaly: no alert until the total history
reaches ten decisions; then a critical alert requiring action at a
deviation of at least three, a warning alert at a deviation of at
least two, and no alert otherwise. -/
noncomputable def check_anomaly (g : CognitiveGuardian) (decision_type : String)
    (amount : Option ℚ) : Option GovernanceAlert :=
  if g.history.length < 10 then none
  else
    let deviation := calculate_deviation g decision_type amount
    if 3 ≤ deviation then
      some { level := .critical, source := "cognitive_guardian"
             requires_action := true, deviation := deviation }
    else if 2 ≤ deviation then
      some { level := .warning, source := "cognitive_guardian"
             requires_action := false, deviation := deviation }
    else none

end

/-- Modelled from the spec for claim C7: the deviation formula the
specification states, the absolute distance from the mean of the
historical same-type amounts divided by the (floored) standard
deviation of those amounts. -/
noncomputable def specDeviation (amounts : List ℚ) (amount : ℚ) : ℝ :=
  |((amount : ℚ) : ℝ) - ((listMean amounts : ℚ) : ℝ)| / stdevOrFloor amounts

/-- Modelled from the spec for claim C8: the risk-tolerance update the
specification states, an exponential moving average with smoothing
factor one tenth towards amount/1000 clamped into the unit interval. -/
def specClampUpdate (tolerance amount : ℚ) : ℚ :=
  (1 - 1/10) * tolerance + (1/10) * (max 0 (min (amount / 1000) 1))

/-! Dictionary lemmas. -/

/-- Writing a key makes it the first binding a search finds. -/
theorem find?_dictSet_self {α : Type} (d : List (String × α)) (k : String) (v : α) :
    List.find? (fun kv => kv.1 == k) (dictSet d k v) = some (k, v) := by
  induction d with
  | nil => simp [dictSet]
  | cons kv rest ih =>
    by_cases h : kv.1 = k
    · simp [dictSet, h]
    · simp [dictSet, h, List.find?_cons_of_neg, ih]

/-- Reading a key just written returns the written value. -/
theorem dictGet_set_self {α : Type} (d : List (String × α)) (k : String) (v : α) :
    dictGet (dictSet d k v) k = some v := by
  simp [dictGet, find?_dictSet_self]

/-- Reading another key after a write is unchanged. -/
theorem dictGet_set_ne {α : Type} (d : List (String × α)) (k k' : String) (v : α)
    (h : k' ≠ k) : dictGet (dictSet d k v) k' = dictGet d k' := by
  induction d with
  | nil =>
    rw [dictSet, dictGet, List.find?_cons_of_neg _ (by simpa using Ne.symm h)]
    simp [dictGet]
  | cons kv rest ih =>
    by_cases hk : kv.1 = k
    · rw [dictSet, if_pos (by simpa using hk), dictGet,
        List.find?_cons_of_neg _ (by simpa using Ne.symm h), dictGet,
        List.find?_cons_of_neg _ (by simp [hk]; exact Ne.symm h)]
    · rw [dictSet, if_neg (by simpa using hk)]
      by_cases hk' : kv.1 = k'
      · rw [dictGet, dictGet, List.find?_cons_of_pos _ (by simpa using hk'),
          List.find?_cons_of_pos _ (by simpa using hk')]
      · rw [dictGet, dictGet, List.find?_cons_of_neg _ (by simpa using hk'),
          List.find?_cons_of_neg _ (by simpa using hk')]
        exact ih

/-- Reading a key just deleted returns nothing. -/
theorem dictGet_del_self {α : Type} (d : List (String × α)) (k : String) :
    dictGet (dictDel d k) k = none := by
  induction d with
  | nil => simp [dictGet, dictDel]
  | cons kv rest ih =>
    by_cases h : kv.1 = k
    · simp [dictDel, List.filter_cons, h]
      simpa [dictDel] using ih
    · simpa [dictDel, dictGet, List.filter_cons, List.find?_cons_of_neg, h] using ih

/-! Claim C9: create_session on an id already in use. -/

/-- An engine legitimately tracking a two-node chain for session s. -/
def c9Engine : ProvenanceEngine :=
  let e0 := (create_session { chains := [] } "s" 0).2
  match record_intent e0 "s" [("objective", "demo")] none "s_i" 1 with
  | .ok (_, e) => e
  | .error _ => e0

/-- Claim C9, counterexample: with session s already in use (its chain
has two nodes), create_session raises no collision error; it returns
normally and the tracked chain for s has silently become the fresh
one-node genesis chain. -/
theorem C9_counterexample :
    (dictGet c9Engine.chains "s").map (fun c => c.nodes.length) = some 2 ∧
    (dictGet ((create_session c9Engine "s" 5).2).chains "s").map
      (fun c => c.nodes.length) = some 1 := by decide

/-- The genesis node create_session builds for a session id and
timestamp. -/
def genesisNode (sid : String) (ts : Nat) : ProvenanceNode :=
  mkNode (sid ++ "_genesis") "genesis" ts
    [("session_id", sid), ("created_at", toString ts)] []

/-- Claim C9, amended: create_session never fails with a collision
error; called with a session id that is already in use it returns
normally and silently replaces the tracked chain with a fresh chain
holding only the new genesis node. -/
theorem C9_amended (e : ProvenanceEngine) (sid : String) (ts : Nat)
    (hused : (dictGet e.chains sid).isSome = true) :
    (create_session e sid ts).1 = sid ∧
    dictGet ((create_session e sid ts).2).chains sid =
      some { session_id := sid, nodes := [genesisNode sid ts]
             root_hash := (genesisNode sid ts).hash, created_at := ts } := by
  refine ⟨rfl, ?_⟩
  simpa [create_session, genesisNode] using
    dictGet_set_self e.chains sid _

/-- Claim C9 witness: the amended statement applied to the concrete
two-node engine. -/
theorem C9_witness :
    (create_session c9Engine "s" 5).1 = "s" ∧
    dictGet ((create_session c9Engine "s" 5).2).chains "s" =
      some { session_id := "s", nodes := [genesisNode "s" 5]
             root_hash := (genesisNode "s" 5).hash, created_at := 5 } :=
  C9_amended c9Engine "s" 5 (by decide)

/-! Claim C10: import_chain deletes a previously tracked chain. -/

/-- Claim C10: import_chain is not atomic with respect to pre-existing
state. If the engine already tracks a (valid) chain for a session and
import_chain is called with a parseable document for the same session
that fails verification, the call returns false and the engine is left
with no chain for that session at all: the import stores the new chain
before verifying and deletes the dictionary entry on failure, so the
previously tracked chain is gone. -/
theorem C10_import_not_atomic (e : ProvenanceEngine) (sid : String)
    (oldChain newChain : ProvenanceChain)
    (hold : dictGet e.chains sid = some oldChain)
    (holdValid : chainVerifies oldChain = true)
    (hsid : newChain.session_id = sid)
    (hbad : chainVerifies newChain = false) :
    (import_chain e (.ok newChain)).1 = false ∧
    dictGet ((import_chain e (.ok newChain)).2).chains sid = none := by
  have hver : verify_chain
      { chains := dictSet e.chains newChain.session_id newChain }
      newChain.session_id = false := by
    simp [verify_chain, dictGet_set_self, hbad]
  constructor
  · simp [import_chain, hver]
  · simp only [import_chain, hver, if_false]
    rw [← hsid]
    exact dictGet_del_self _ _

/-- An engine legitimately tracking a valid two-node chain for session
s, used by the import and tamper witnesses. -/
def c10Engine : ProvenanceEngine :=
  let e0 := (create_session { chains := [] } "s" 0).2
  match record_intent e0 "s" [("objective", "demo")] none "s_i" 1 with
  | .ok (_, e) => e
  | .error _ => e0

/-- An import document for session s whose stored root hash is forged,
so the reconstructed chain fails verification. -/
def c10BadChain : ProvenanceChain :=
  { session_id := "s", nodes := [genesisNode "s" 3], root_hash := default
    created_at := 3 }

/-- Claim C10 witness: importing the forged document over the tracked
valid chain for s returns false and leaves no chain for s behind. -/
theorem C10_witness :
    (import_chain c10Engine (.ok c10BadChain)).1 = false ∧
    dictGet ((import_chain c10Engine (.ok c10BadChain)).2).chains "s" = none := by
  have h := C10_import_not_atomic c10Engine "s"
    ((dictGet c10Engine.chains "s").getD default)
    c10BadChain (by decide) (by decide) (by decide) (by decide)
  exact h

/-! Claim C2: appends do not validate parent ids. -/

/-- A fresh one-node engine for session s. -/
def c2Engine : ProvenanceEngine := (create_session { chains := [] } "s" 0).2

/-- Claim C2, counterexample: the chain of session s contains only the
genesis node, yet record_step with the nonexistent parent id ghost
returns successfully instead of failing with a dangling-parent error. -/
theorem C2_counterexample :
    (dictGet c2Engine.chains "s").map (fun c => c.nodes.map (fun n => n.node_id)) =
      some ["s_genesis"] ∧
    (record_step c2Engine "s" [("k", "v")] "ghost" "s_n1" 1).isOk = true := by
  decide

/-- The engine state after appending one node to the chain tracked for
a session; helper for stating what the append operations produce. -/
def appendNode (e : ProvenanceEngine) (sid : String) (chain : ProvenanceChain)
    (node : ProvenanceNode) : ProvenanceEngine :=
  { chains := dictSet e.chains sid { chain with nodes := chain.nodes ++ [node] } }

/-- Appending a node one of whose parent ids resolves neither among the
existing nodes nor to the new node itself makes the chain fail
verification. -/
theorem verify_append_dangling (e : ProvenanceEngine) (sid : String)
    (chain : ProvenanceChain) (node : ProvenanceNode) (pid : String)
    (hmem : pid ∈ node.parent_ids)
    (hp : ∀ n ∈ chain.nodes, n.node_id ≠ pid) (hnid : node.node_id ≠ pid) :
    verify_chain (appendNode e sid chain node) sid = false := by
  have hany : (chain.nodes ++ [node]).any (fun m => decide (m.node_id = pid)) = false := by
    rw [List.any_eq_false]
    intro m hm
    rcases List.mem_append.mp hm with h | h
    · simpa using hp m h
    · simp only [List.mem_singleton] at h
      subst h
      simpa using hnid
  have hallp : node.parent_ids.all
      (fun pid => (chain.nodes ++ [node]).any (fun m => decide (m.node_id = pid))) = false := by
    rw [List.all_eq_false]
    exact ⟨pid, hmem, by simp [hany]⟩
  have hnodeOk : nodeOk (chain.nodes ++ [node]) node = false := by
    rw [nodeOk, hallp, Bool.and_false]
  have hall : (chain.nodes ++ [node]).all (nodeOk (chain.nodes ++ [node])) = false := by
    rw [List.all_eq_false]
    exact ⟨node, by simp, by simp [hnodeOk]⟩
  simp [verify_chain, appendNode, dictGet_set_self, chainVerifies, hall]

/-- Claim C2, amended: the append operations validate only the session
id, never the parent ids. Appending through the shared add-node body
(record_intent, record_plan, record_step, record_result) or through
record_synthesis with a parent id that does not exist in the chain
succeeds, and the dangling parent is only detected afterwards by
verify_chain returning false. -/
theorem C2_amended (e : ProvenanceEngine) (sid nt : String) (data : Payload)
    (pid nid : String) (parents : List String) (ts : Nat)
    (chain : ProvenanceChain)
    (hc : dictGet e.chains sid = some chain)
    (hp : ∀ n ∈ chain.nodes, n.node_id ≠ pid) (hnid : nid ≠ pid)
    (hmem : pid ∈ parents) :
    (∃ e', addNode e sid nt data pid nid ts = .ok (nid, e') ∧
      verify_chain e' sid = false) ∧
    (∃ e', record_synthesis e sid data parents nid ts = .ok (nid, e') ∧
      verify_chain e' sid = false) := by
  constructor
  · refine ⟨appendNode e sid chain (mkNode nid nt ts data [pid]), ?_, ?_⟩
    · simp [addNode, hc, appendNode]
    · exact verify_append_dangling e sid chain (mkNode nid nt ts data [pid]) pid
        (by simp [mkNode]) hp (by simpa [mkNode] using hnid)
  · refine ⟨appendNode e sid chain (mkNode nid "synthesis" ts data parents), ?_, ?_⟩
    · simp [record_synthesis, hc, appendNode]
    · exact verify_append_dangling e sid chain (mkNode nid "synthesis" ts data parents) pid
        (by simpa [mkNode] using hmem) hp (by simpa [mkNode] using hnid)

/-- Claim C2 witness: the amended statement applied to the fresh
one-node engine with the nonexistent parent id ghost. -/
theorem C2_witness :
    (∃ e', addNode c2Engine "s" "step" [("k", "v")] "ghost" "s_n1" 1 = .ok ("s_n1", e') ∧
      verify_chain e' "s" = false) ∧
    (∃ e', record_synthesis c2Engine "s" [("k", "v")] ["ghost"] "s_n1" 1 = .ok ("s_n1", e') ∧
      verify_chain e' "s" = false) := by
  have h := C2_amended c2Engine "s" "step" [("k", "v")] "ghost" "s_n1" ["ghost"] 1
    { session_id := "s", nodes := [genesisNode "s" 0]
      root_hash := (genesisNode "s" 0).hash, created_at := 0 }
    (by decide) (by decide) (by decide) (by decide)
  exact h

/-! Claim C1: lineage order on a multi-parent chain. -/

/-- A legitimately built session: genesis, an intent node s_x with
parent genesis, and a synthesis node s_t with parents genesis and s_x
(every parent exists at append time, so the chain verifies). -/
def c1Engine : ProvenanceEngine :=
  let e0 := (create_session { chains := [] } "s" 0).2
  let e1 := match record_intent e0 "s" [("objective", "x")] none "s_x" 1 with
            | .ok (_, e) => e
            | .error _ => e0
  match record_synthesis e1 "s" [("summary", "t")] ["s_genesis", "s_x"] "s_t" 2 with
  | .ok (_, e) => e
  | .error _ => e1

/-- Claim C1: on the valid chain genesis <- s_x, with synthesis node
s_t whose parents are genesis and s_x, the lineage of s_t comes back as
s_x, genesis, s_t: the genesis node is not the first element, and the
first element s_x has its parent genesis strictly later in the list.
The reversed breadth-first visit order is not a topological order of
the ancestor DAG, contradicting both the specification and the
function's own documentation (a list from genesis to the node, in
chronological order). -/
theorem C1_lineage_order_violated :
    verify_chain c1Engine "s" = true ∧
    (get_node_lineage c1Engine "s" "s_t").map (fun n => n.node_id) =
      ["s_x", "s_genesis", "s_t"] ∧
    (get_node_lineage c1Engine "s" "s_t").head?.map (fun n => n.node_type) =
      some "intent" ∧
    (get_node_lineage c1Engine "s" "s_t").head?.map (fun n => n.parent_ids) =
      some ["s_genesis"] := by
  decide

/-! Claim C6: tampering with a data payload breaks verification. -/

/-- Engines reachable by the ledger's constructor operations: the empty
engine, and anything obtained from a reachable engine by a session
creation or a successful append. -/
inductive Built : ProvenanceEngine → Prop
  | empty : Built { chains := [] }
  | create (e : ProvenanceEngine) (sid : String) (ts : Nat) :
      Built e → Built (create_session e sid ts).2
  | add (e e' : ProvenanceEngine) (sid nt : String) (data : Payload)
      (pid nid : String) (ts : Nat) :
      Built e → addNode e sid nt data pid nid ts = .ok (nid, e') → Built e'
  | synth (e e' : ProvenanceEngine) (sid : String) (data : Payload)
      (parents : List String) (nid : String) (ts : Nat) :
      Built e → record_synthesis e sid data parents nid ts = .ok (nid, e') →
      Built e'

/-- Every node of every chain of the engine stores exactly its
recomputed hash. -/
def hashValid (e : ProvenanceEngine) : Prop :=
  ∀ sid chain, dictGet e.chains sid = some chain →
    ∀ n ∈ chain.nodes, n.hash = compute_hash n

/-- The freshly stamped hash of a built node is its computed hash. -/
theorem mkNode_hash (nid nt : String) (ts : Nat) (data : Payload)
    (parents : List String) :
    (mkNode nid nt ts data parents).hash = compute_hash (mkNode nid nt ts data parents) :=
  rfl

/-- Every engine reachable by the constructor operations is hash-valid:
each stored node's hash is the hash of its content. -/
theorem built_hashValid (e : ProvenanceEngine) (hb : Built e) : hashValid e := by
  induction hb with
  | empty => intro sid chain h; simp [dictGet] at h
  | create e sid ts _ ih =>
    intro sid' chain' h n hn
    by_cases hs : sid' = sid
    · subst hs
      rw [create_session] at h
      simp only at h
      rw [dictGet_set_self] at h
      injection h with h
      subst h
      simp only [List.mem_singleton] at hn
      subst hn
      exact mkNode_hash ..
    · rw [create_session] at h
      simp only at h
      rw [dictGet_set_ne _ _ _ _ hs] at h
      exact ih sid' chain' h n hn
  | add e e' sid nt data pid nid ts _ heq ih =>
    intro sid' chain' h n hn
    rw [addNode] at heq
    cases hc : dictGet e.chains sid with
    | none => rw [hc] at heq; cases heq
    | some chain =>
      rw [hc] at heq
      simp only [Except.ok.injEq, Prod.mk.injEq, true_and] at heq
      subst heq
      by_cases hs : sid' = sid
      · subst hs
        rw [dictGet_set_self] at h
        injection h with h
        subst h
        simp only at hn
        rcases List.mem_append.mp hn with hm | hm
        · exact ih sid' chain hc n hm
        · simp only [List.mem_singleton] at hm
          subst hm
          exact mkNode_hash ..
      · rw [dictGet_set_ne _ _ _ _ hs] at h
        exact ih sid' chain' h n hn
  | synth e e' sid data parents nid ts _ heq ih =>
    intro sid' chain' h n hn
    rw [record_synthesis] at heq
    cases hc : dictGet e.chains sid with
    | none => rw [hc] at heq; cases heq
    | some chain =>
      rw [hc] at heq
      simp only [Except.ok.injEq, Prod.mk.injEq, true_and] at heq
      subst heq
      by_cases hs : sid' = sid
      · subst hs
        rw [dictGet_set_self] at h
        injection h with h
        subst h
        simp only at hn
        rcases List.mem_append.mp hn with hm | hm
        · exact ih sid' chain hc n hm
        · simp only [List.mem_singleton] at hm
          subst hm
          exact mkNode_hash ..
      · rw [dictGet_set_ne _ _ _ _ hs] at h
        exact ih sid' chain' h n hn

/-- Overwrite the value of a key in a data payload (Python dict item
assignment on an existing key). -/
def setField (data : Payload) (k v : String) : Payload :=
  data.map (fun kv => if kv.1 = k then (k, v) else kv)

/-- A node with one field of its data payload overwritten and the
stored hash left untouched. -/
def mutatedNode (n : ProvenanceNode) (k v : String) : ProvenanceNode :=
  { n with data := setField n.data k v }

/-- Mutate one field of the data payload of the node at a given index
of a session's chain, in place, leaving the stored hash untouched:
the tampering move of the claim. -/
def tamperData (e : ProvenanceEngine) (sid : String) (i : Nat) (k v : String) :
    ProvenanceEngine :=
  match dictGet e.chains sid with
  | none => e
  | some chain =>
    match chain.nodes[i]? with
    | none => e
    | some n =>
      { chains := dictSet e.chains sid
          { chain with nodes := chain.nodes.set i (mutatedNode n k v) } }

/-- Overwriting an existing key with a different value changes the
payload. -/
theorem setField_ne (data : Payload) (k v v' : String)
    (hk : (k, v) ∈ data) (hne : v' ≠ v) : setField data k v' ≠ data := by
  intro heq
  obtain ⟨j, hj, hget⟩ := List.mem_iff_getElem.mp hk
  have h1 : (setField data k v')[j]? = some (k, v') := by
    rw [setField, List.getElem?_map, List.getElem?_eq_getElem hj, hget]
    simp
  rw [heq, List.getElem?_eq_getElem hj, hget] at h1
  simp only [Option.some.injEq, Prod.mk.injEq, true_and] at h1
  exact hne h1.symm

/-- Claim C6: on any engine reachable by create_session and the append
operations, mutating any single field of any node's data payload to a
different value makes verify_chain return false: the recomputed
deterministic hash of the mutated node no longer equals its stored
hash. -/
theorem C6_tamper_breaks_verify (e : ProvenanceEngine) (sid : String)
    (chain : ProvenanceChain) (i : Nat) (k v v' : String)
    (hb : Built e) (hc : dictGet e.chains sid = some chain)
    (hi : i < chain.nodes.length)
    (hk : (k, v) ∈ (chain.nodes[i]).data) (hne : v' ≠ v) :
    verify_chain (tamperData e sid i k v') sid = false := by
  have hget? : chain.nodes[i]? = some (chain.nodes[i]) :=
    List.getElem?_eq_getElem hi
  have ht : tamperData e sid i k v' =
      { chains := dictSet e.chains sid
          { chain with nodes :=
              chain.nodes.set i (mutatedNode (chain.nodes[i]) k v') } } := by
    simp only [tamperData, hc, hget?]
  have hnh : (chain.nodes[i]).hash = compute_hash (chain.nodes[i]) :=
    built_hashValid e hb sid chain hc _ (List.getElem_mem hi)
  have hdne : ¬ (mutatedNode (chain.nodes[i]) k v').hash =
      compute_hash (mutatedNode (chain.nodes[i]) k v') := by
    intro hcontra
    have hdata : (chain.nodes[i]).data = setField (chain.nodes[i]).data k v' := by
      have h2 := hnh.symm.trans hcontra
      exact congrArg HashContent.data h2
    exact setField_ne (chain.nodes[i]).data k v v' hk hne hdata.symm
  have hnodeOk : nodeOk
      (chain.nodes.set i (mutatedNode (chain.nodes[i]) k v'))
      (mutatedNode (chain.nodes[i]) k v') = false := by
    rw [nodeOk, decide_eq_false hdne, Bool.false_and]
  have hmem : mutatedNode (chain.nodes[i]) k v' ∈
      chain.nodes.set i (mutatedNode (chain.nodes[i]) k v') := by
    have hlen : i < (chain.nodes.set i (mutatedNode (chain.nodes[i]) k v')).length := by
      simpa using hi
    have h3 := List.getElem_set_self (l := chain.nodes) (i := i)
      (a := mutatedNode (chain.nodes[i]) k v') hlen
    have h4 := List.getElem_mem hlen
    rw [h3] at h4
    exact h4
  have hall : (chain.nodes.set i (mutatedNode (chain.nodes[i]) k v')).all
      (nodeOk (chain.nodes.set i (mutatedNode (chain.nodes[i]) k v'))) = false := by
    rw [List.all_eq_false]
    exact ⟨_, hmem, by simp [hnodeOk]⟩
  rw [ht]
  simp only [verify_chain, dictGet_set_self, chainVerifies]
  rw [hall, Bool.false_and]

/-- Claim C6 witness: tampering with the objective field of the intent
node of the concrete two-node engine breaks verification. -/
theorem C6_witness :
    verify_chain (tamperData c10Engine "s" 1 "objective" "evil") "s" = false :=
  C6_tamper_breaks_verify c10Engine "s"
    ((dictGet c10Engine.chains "s").getD default) 1 "objective" "demo" "evil"
    (Built.add (create_session { chains := [] } "s" 0).2 c10Engine "s" "intent"
      [("objective", "demo")] "s_genesis" "s_i" 1
      (Built.create { chains := [] } "s" 0 Built.empty) rfl)
    (by decide) (by decide) (by decide) (by decide)

/-! Claim C3: provenance side effects around plan validation. -/

/-- A parsed intent with no budget. -/
def c3Intent : UserIntent :=
  { raw_input := "design x", primary_objective := "design x", domain := "ui"
    constraints := [], success_criteria := [], budget := none, mode := .narrow }

/-- A step whose server does not resolve in an empty registry. -/
def c3Step : OrchestrationStep :=
  { step_id := "s1", description := "d", server_name := "missing"
    tool_name := "generate", parameters := [], dependencies := []
    status := .pending, parallel_group := none }

/-- A plan that fails validation against the empty registry. -/
def c3Plan : OrchestrationPlan :=
  { intent := c3Intent, steps := [c3Step], estimated_cost := 0
    estimated_time := 30, confidence := 4/5, templates_used := [] }

/-- The kernel environment for the failing-validation run. -/
def c3Env : KernelEnv :=
  { parsed_intent := c3Intent, plan := c3Plan
    outcome := fun _ => .error "not reached" }

/-- Claim C3, counterexample: the plan fails validation and the run
returns a failed result, but the session chain already holds two
provenance nodes, the genesis and the intent node, both recorded
before the validation outcome was decided; the claim that no
provenance node is recorded before validation is false. -/
theorem C3_counterexample :
    (validate_plan [] c3Plan).1 = false ∧
    (execute_async { chains := [] } [] c3Env "s" "s_i" "s_p").1.status = .failed ∧
    (dictGet (execute_async { chains := [] } [] c3Env "s" "s_i" "s_p").2.chains "s").map
      (fun c => c.nodes.map (fun n => n.node_type)) = some ["genesis", "intent"] := by
  decide

/-- Claim C3, amended: when plan validation fails, the run aborts with
a failed result carrying the validation reason, with no deliverables,
no accumulated cost, and no plan, step or result provenance nodes; but
the genesis and intent provenance nodes have already been recorded in
the session chain before the validation outcome is decided. -/
theorem C3_amended (e : ProvenanceEngine) (reg : Registry) (env : KernelEnv)
    (sid intentNid planNid : String) (err : ValidationError)
    (hval : validate_plan reg env.plan = (false, some err)) :
    (execute_async e reg env sid intentNid planNid).1.status = .failed ∧
    (execute_async e reg env sid intentNid planNid).1.error = some err ∧
    (execute_async e reg env sid intentNid planNid).1.deliverables = [] ∧
    (execute_async e reg env sid intentNid planNid).1.cost = 0 ∧
    (dictGet (execute_async e reg env sid intentNid planNid).2.chains sid).map
      (fun c => c.nodes.map (fun n => n.node_type)) = some ["genesis", "intent"] := by
  simp only [execute_async, create_session, record_intent, addNode,
    dictGet_set_self, hval, mkNode, genesisNode]
  simp

/-- Claim C3 witness: the amended statement applied to the concrete
failing-validation run. -/
theorem C3_witness :
    (execute_async { chains := [] } [] c3Env "s" "s_i" "s_p").1.status = .failed ∧
    (execute_async { chains := [] } [] c3Env "s" "s_i" "s_p").1.error =
      some (.unknownServer "missing") ∧
    (execute_async { chains := [] } [] c3Env "s" "s_i" "s_p").1.deliverables = [] ∧
    (execute_async { chains := [] } [] c3Env "s" "s_i" "s_p").1.cost = 0 ∧
    (dictGet (execute_async { chains := [] } [] c3Env "s" "s_i" "s_p").2.chains "s").map
      (fun c => c.nodes.map (fun n => n.node_type)) = some ["genesis", "intent"] :=
  C3_amended { chains := [] } [] c3Env "s" "s_i" "s_p"
    (.unknownServer "missing") (by decide)

/-! Claim C4: step statuses and sibling independence. -/

/-- The positional grouping pass returns a partition: concatenating the
groups gives back the original step list. -/
theorem groupSteps_join (steps : List OrchestrationStep) :
    ∀ (cur : Option Int) (current : List OrchestrationStep),
      (groupSteps cur current steps).join = current ++ steps := by
  induction steps with
  | nil =>
    intro cur current
    cases current <;> simp [groupSteps]
  | cons s rest ih =>
    intro cur current
    by_cases h : s.parallel_group ≠ cur
    · rw [groupSteps, if_pos h]
      cases current with
      | nil => simpa using ih s.parallel_group [s]
      | cons a l =>
        simp [List.join_append, ih s.parallel_group [s]]
    · rw [groupSteps, if_neg h]
      simpa [List.append_assoc] using ih cur (current ++ [s])

/-- Within one group, every step is processed and receives completed
exactly when its task returned a response and failed exactly when its
task raised, regardless of the accumulators. -/
theorem processGroup_spec (outcome : StepOracle) (group : List OrchestrationStep) :
    ∀ d c, (processGroup outcome group d c).1.map Prod.fst = group ∧
      ∀ p ∈ (processGroup outcome group d c).1,
        p.2 = match outcome p.1 with
              | .ok _ => TaskStatus.completed
              | .error _ => TaskStatus.failed := by
  induction group with
  | nil => intro d c; simp [processGroup]
  | cons s rest ih =>
    intro d c
    cases ho : outcome s with
    | error msg =>
      simp only [processGroup, ho]
      refine ⟨by simp [(ih d c).1], ?_⟩
      intro p hp
      rcases List.mem_cons.mp hp with h | h
      · subst h; simp [ho]
      · exact (ih d c).2 p h
    | ok resp =>
      simp only [processGroup, ho]
      refine ⟨by simp [(ih (dictSet d s.step_id resp.result) (c + resp.cost)).1], ?_⟩
      intro p hp
      rcases List.mem_cons.mp hp with h | h
      · subst h; simp [ho]
      · exact (ih (dictSet d s.step_id resp.result) (c + resp.cost)).2 p h

/-- Across the sequential groups, every step of every group is
processed with the same per-step status rule. -/
theorem executePlanGroups_spec (outcome : StepOracle)
    (gs : List (List OrchestrationStep)) :
    ∀ d c, (executePlanGroups outcome gs d c).1.map Prod.fst = gs.join ∧
      ∀ p ∈ (executePlanGroups outcome gs d c).1,
        p.2 = match outcome p.1 with
              | .ok _ => TaskStatus.completed
              | .error _ => TaskStatus.failed := by
  induction gs with
  | nil => intro d c; simp [executePlanGroups]
  | cons g gs ih =>
    intro d c
    simp only [executePlanGroups]
    constructor
    · rw [List.map_append, (processGroup_spec outcome g d c).1]
      rw [(ih (processGroup outcome g d c).2.1 (processGroup outcome g d c).2.2).1]
      simp
    · intro p hp
      rcases List.mem_append.mp hp with h | h
      · exact (processGroup_spec outcome g d c).2 p h
      · exact (ih (processGroup outcome g d c).2.1 (processGroup outcome g d c).2.2).2 p h

/-- A response carrying an error message: its step task returned
normally, so the coordinator treats the step as completed. -/
def c4Resp : MCPResponse :=
  { request_id := "r1", server_name := "srv", tool_name := "t"
    result := none, error := some "tool failed", cost := 0 }

/-- An oracle under which the single step returns the error-carrying
response. -/
def c4Oracle : StepOracle := fun _ => .ok c4Resp

/-- Claim C4, counterexample: a step whose invocation returns a
Response carrying a non-empty error is marked completed, not failed;
only a raised exception produces the failed status. -/
theorem C4_counterexample :
    c4Resp.error = some "tool failed" ∧
    (execute_plan c4Oracle [c3Step]).1 = [(c3Step, .completed)] := by
  constructor
  · rfl
  · rfl

/-- Claim C4, amended: every step of every group is processed (a
failure in one step never aborts its siblings: each step's outcome is
consulted and each step receives a final status, in plan order), and a
step's status is failed exactly when its task raised an exception and
completed exactly when its task returned a Response, even when that
Response carries an error. -/
theorem C4_amended (outcome : StepOracle) (steps : List OrchestrationStep) :
    (execute_plan outcome steps).1.map Prod.fst = steps ∧
    ∀ p ∈ (execute_plan outcome steps).1,
      p.2 = match outcome p.1 with
            | .ok _ => TaskStatus.completed
            | .error _ => TaskStatus.failed := by
  constructor
  · rw [execute_plan, (executePlanGroups_spec outcome (sequential_groups steps) [] 0).1,
      sequential_groups, groupSteps_join]
    rfl
  · exact (executePlanGroups_spec outcome (sequential_groups steps) [] 0).2

/-- Claim C4 witness: the amended statement applied to the one-step
plan whose step returns an error-carrying response. -/
theorem C4_witness :
    (execute_plan c4Oracle [c3Step]).1.map Prod.fst = [c3Step] ∧
    ∀ p ∈ (execute_plan c4Oracle [c3Step]).1,
      p.2 = match c4Oracle p.1 with
            | .ok _ => TaskStatus.completed
            | .error _ => TaskStatus.failed :=
  C4_amended c4Oracle [c3Step]

/-! Claim C5: retry exhaustion in send_request. -/

/-- When every attempt fails, the retry loop runs to its last attempt,
returns the last error message as response data, counts exactly
maxRetries attempts, and sleeps two to the attempt index between
consecutive attempts. -/
theorem sendLoop_all_fail (env : Nat → Except String MCPResponse)
    (maxRetries : Nat) (rid server tool : String) (msg : Nat → String)
    (henv : ∀ i, i < maxRetries → env i = .error (msg i)) :
    ∀ remaining attempt, attempt + remaining = maxRetries → 0 < remaining →
      sendLoop env maxRetries rid server tool attempt remaining =
        (mkErrorResponse rid server tool (msg (maxRetries - 1)), maxRetries,
         (List.range' attempt (maxRetries - 1 - attempt)).map (fun i => 2 ^ i)) := by
  intro remaining
  induction remaining with
  | zero => intro attempt h h0; omega
  | succ rem ih =>
    intro attempt hsum _
    have hatt : attempt < maxRetries := by omega
    simp only [sendLoop, henv attempt hatt]
    by_cases hrem : rem = 0
    · subst hrem
      have hnotlt : ¬ attempt < maxRetries - 1 := by omega
      rw [if_neg hnotlt]
      have h1 : attempt = maxRetries - 1 := by omega
      subst h1
      have h2 : maxRetries - 1 + 1 = maxRetries := by omega
      have h3 : maxRetries - 1 - (maxRetries - 1) = 0 := by omega
      rw [h2, h3, List.range'_zero, List.map_nil]
    · have hlt : attempt < maxRetries - 1 := by omega
      rw [if_pos hlt]
      rw [ih (attempt + 1) (by omega) (by omega)]
      have h4 : maxRetries - 1 - attempt = (maxRetries - 1 - (attempt + 1)) + 1 := by omega
      rw [h4, List.range'_succ, List.map_cons]

/-- The exponential backoff waits are strictly increasing. -/
theorem chain_lt_pow_map (k : Nat) : ∀ s : Nat,
    List.Chain' (fun a b => a < b) ((List.range' s k).map (fun i => 2 ^ i)) := by
  induction k with
  | zero => intro s; simp
  | succ n ih =>
    intro s
    cases n with
    | zero => simp
    | succ m =>
      rw [List.range'_succ, List.map_cons, List.range'_succ, List.map_cons,
        List.chain'_cons]
      refine ⟨Nat.pow_lt_pow_right (by norm_num) (by omega), ?_⟩
      have h5 := ih (s + 1)
      rw [List.range'_succ, List.map_cons] at h5
      exact h5

/-- Claim C5: against a target whose every attempt fails with a
non-empty message, send_request makes exactly maxRetries attempts,
sleeps two to the power of the zero-based attempt index between
consecutive attempts (the waits are strictly increasing), and returns
a Response carrying a non-empty error message, no result, and cost
zero; by its return type it hands failure back as data rather than
raising. -/
theorem C5_retry_exhaustion (env : Nat → Except String MCPResponse)
    (maxRetries : Nat) (rid server tool : String) (msg : Nat → String)
    (henv : ∀ i, i < maxRetries → env i = .error (msg i))
    (hmsg : ∀ i, msg i ≠ "") :
    (send_request env maxRetries rid server tool).2.1 = maxRetries ∧
    (send_request env maxRetries rid server tool).2.2 =
      (List.range (maxRetries - 1)).map (fun i => 2 ^ i) ∧
    List.Chain' (fun a b => a < b) (send_request env maxRetries rid server tool).2.2 ∧
    (∃ s, (send_request env maxRetries rid server tool).1.error = some s ∧ s ≠ "") ∧
    (send_request env maxRetries rid server tool).1.cost = 0 ∧
    (send_request env maxRetries rid server tool).1.result = none := by
  cases maxRetries with
  | zero =>
    refine ⟨rfl, by simp [send_request, sendLoop], by simp [send_request, sendLoop], ?_, rfl, rfl⟩
    exact ⟨"Max retries exceeded", rfl, by decide⟩
  | succ m =>
    have h := sendLoop_all_fail env (m + 1) rid server tool msg henv (m + 1) 0
      (by omega) (by omega)
    rw [send_request] at *
    rw [h]
    refine ⟨rfl, ?_, ?_, ⟨msg (m + 1 - 1), rfl, hmsg _⟩, rfl, rfl⟩
    · simp [List.range_eq_range']
    · exact chain_lt_pow_map _ 0

/-- An endpoint for which every attempt raises the same transport
error. -/
def c5Env : Nat → Except String MCPResponse := fun _ => .error "connection refused"

/-- Claim C5 witness: the statement applied to the always-failing
endpoint with the default of three retries. -/
theorem C5_witness :
    (send_request c5Env 3 "r1" "srv" "t").2.1 = 3 ∧
    (send_request c5Env 3 "r1" "srv" "t").2.2 = (List.range 2).map (fun i => 2 ^ i) ∧
    List.Chain' (fun a b => a < b) (send_request c5Env 3 "r1" "srv" "t").2.2 ∧
    (∃ s, (send_request c5Env 3 "r1" "srv" "t").1.error = some s ∧ s ≠ "") ∧
    (send_request c5Env 3 "r1" "srv" "t").1.cost = 0 ∧
    (send_request c5Env 3 "r1" "srv" "t").1.result = none :=
  C5_retry_exhaustion c5Env 3 "r1" "srv" "t" (fun _ => "connection refused")
    (fun _ _ => rfl) (fun _ => (by decide : ("connection refused" : String) ≠ ""))

/-! Claim C8: risk tolerance update and its range. -/

/-- A fresh guardian after one budget approval of minus ten thousand. -/
def c8Guardian : CognitiveGuardian :=
  record_decision (mkGuardian "op") "budget_approval" (some (-10000))

/-- Claim C8, counterexample: after a budget_approval decision with a
negative amount, the risk tolerance is minus eleven twentieths: it
differs from the clamped update the claim states and has left the unit
interval, because the source normalizes with min only and has no lower
clamp at zero. -/
theorem C8_counterexample :
    c8Guardian.profile.risk_tolerance = -11/20 ∧
    c8Guardian.profile.risk_tolerance ≠ specClampUpdate (1/2) (-10000) ∧
    ¬ 0 ≤ c8Guardian.profile.risk_tolerance := by
  have h : c8Guardian.profile.risk_tolerance = -11/20 := by
    norm_num [c8Guardian, record_decision, update_profile, mkGuardian, mkProfile,
      min_def]
  refine ⟨h, ?_, ?_⟩
  · rw [h]
    norm_num [specClampUpdate, min_def, max_def]
  · rw [h]
    norm_num

/-- The risk-tolerance update rule actually implemented for a
budget_approval decision carrying an amount. -/
theorem record_budget_formula (g : CognitiveGuardian) (a : ℚ) :
    (record_decision g "budget_approval" (some a)).profile.risk_tolerance =
      (1 - 1/10) * g.profile.risk_tolerance + (1/10) * min (a / 1000) 1 := by
  simp [record_decision, update_profile]

/-- One recorded decision with a nonnegative amount keeps the risk
tolerance in the unit interval. -/
theorem record_tolerance_bounds (g : CognitiveGuardian) (dt : String) (a? : Option ℚ)
    (h0 : 0 ≤ g.profile.risk_tolerance) (h1 : g.profile.risk_tolerance ≤ 1)
    (ha : ∀ a, a? = some a → 0 ≤ a) :
    0 ≤ (record_decision g dt a?).profile.risk_tolerance ∧
      (record_decision g dt a?).profile.risk_tolerance ≤ 1 := by
  rw [record_decision]
  simp only [update_profile]
  by_cases hdt : dt = "budget_approval"
  · cases a? with
    | none => simpa [hdt] using ⟨h0, h1⟩
    | some a =>
      have hnn : (0:ℚ) ≤ a := ha a rfl
      have hm0 : (0:ℚ) ≤ min (a / 1000) 1 := le_min (by positivity) (by norm_num)
      have hm1 : min (a / 1000) 1 ≤ 1 := min_le_right _ _
      simp only [hdt, if_true]
      constructor <;> nlinarith [h0, h1, hm0, hm1]
  · simpa [hdt] using ⟨h0, h1⟩

/-- Claim C8, amended: after a budget_approval decision carrying an
amount, the risk tolerance becomes (1 - a) t + a min(amount/1000, 1)
with a = 1/10 (there is no lower clamp at zero), and for every
sequence of recorded decisions whose amounts are all nonnegative, a
risk tolerance starting in the unit interval stays in the unit
interval. -/
theorem C8_amended (g : CognitiveGuardian) (ds : List (String × Option ℚ))
    (h0 : 0 ≤ g.profile.risk_tolerance) (h1 : g.profile.risk_tolerance ≤ 1)
    (hds : ∀ d ∈ ds, ∀ a, d.2 = some a → 0 ≤ a) :
    (∀ (g' : CognitiveGuardian) (a : ℚ),
      (record_decision g' "budget_approval" (some a)).profile.risk_tolerance =
        (1 - 1/10) * g'.profile.risk_tolerance + (1/10) * min (a / 1000) 1) ∧
    0 ≤ (record_all g ds).profile.risk_tolerance ∧
    (record_all g ds).profile.risk_tolerance ≤ 1 := by
  refine ⟨fun g' a => record_budget_formula g' a, ?_⟩
  induction ds generalizing g with
  | nil => simpa [record_all] using ⟨h0, h1⟩
  | cons d rest ih =>
    have hb := record_tolerance_bounds g d.1 d.2 h0 h1
      (fun a hsome => hds d (by simp) a hsome)
    have hrest := ih (record_decision g d.1 d.2) hb.1 hb.2
      (fun d' hd' a hsome => hds d' (by simp [hd']) a hsome)
    simpa [record_all, List.foldl_cons] using hrest

/-- Claim C8 witness: the amended statement applied to a fresh guardian
and a concrete two-decision sequence with nonnegative amounts. -/
theorem C8_witness :
    (∀ (g' : CognitiveGuardian) (a : ℚ),
      (record_decision g' "budget_approval" (some a)).profile.risk_tolerance =
        (1 - 1/10) * g'.profile.risk_tolerance + (1/10) * min (a / 1000) 1) ∧
    0 ≤ (record_all (mkGuardian "w")
      [("budget_approval", some 2000), ("template_selection", none)]).profile.risk_tolerance ∧
    (record_all (mkGuardian "w")
      [("budget_approval", some 2000), ("template_selection", none)]).profile.risk_tolerance ≤ 1 :=
  C8_amended (mkGuardian "w")
    [("budget_approval", some 2000), ("template_selection", none)]
    (by norm_num [mkGuardian, mkProfile])
    (by norm_num [mkGuardian, mkProfile])
    (by
      intro d hd a hsome
      rcases List.mem_cons.mp hd with h | h
      · subst h
        simp only [Option.some.injEq] at hsome
        rw [← hsome]
        norm_num
      · simp only [List.mem_singleton] at h
        subst h
        cases hsome)

/-! Claim C7: anomaly checking. -/

/-- A guardian fed ten prior budget_approval decisions with amounts
near one hundred whose sample standard deviation is exactly ten. -/
def c7Guardian : CognitiveGuardian :=
  record_all (mkGuardian "op")
    [("budget_approval", some 115), ("budget_approval", some 115),
     ("budget_approval", some 85), ("budget_approval", some 85),
     ("budget_approval", some 100), ("budget_approval", some 100),
     ("budget_approval", some 100), ("budget_approval", some 100),
     ("budget_approval", some 100), ("budget_approval", some 100)]

/-- The concrete historical amounts of the ten-decision guardian. -/
theorem c7_amounts : historical_amounts c7Guardian =
    [115, 115, 85, 85, 100, 100, 100, 100, 100, 100] := rfl

/-- The concrete history length of the ten-decision guardian. -/
theorem c7_histlen : c7Guardian.history.length = 10 := rfl

/-- The concrete same-type count of the ten-decision guardian. -/
theorem c7_count : historicalCount c7Guardian "budget_approval" = 10 := rfl

/-- The mean of the ten amounts is one hundred. -/
theorem c7_mean : listMean [115, 115, 85, 85, 100, 100, 100, 100, 100, 100] = 100 := by
  norm_num [listMean, List.sum_cons]

/-- The sample variance of the ten amounts is one hundred. -/
theorem c7_var : sampleVariance [115, 115, 85, 85, 100, 100, 100, 100, 100, 100] = 100 := by
  rw [sampleVariance, c7_mean]
  norm_num [List.map_cons, List.sum_cons]

/-- The sample standard deviation of the ten amounts is ten. -/
theorem c7_stdev :
    stdevOrFloor [(115 : ℚ), 115, 85, 85, 100, 100, 100, 100, 100, 100] = 10 := by
  rw [stdevOrFloor, if_pos (by norm_num), c7_var]
  rw [show (((100 : ℚ) : ℝ)) = 10 ^ 2 by norm_num]
  exact Real.sqrt_sq (by norm_num)

/-- The deviation of a five-hundred amount against the ten-decision
guardian is forty sigma. -/
theorem c7_dev : calculate_deviation c7Guardian "budget_approval" (some 500) = 40 := by
  simp only [calculate_deviation]
  rw [if_neg (by rw [c7_count]; norm_num)]
  rw [if_pos (by simp)]
  rw [c7_amounts]
  rw [if_neg (by norm_num)]
  rw [c7_stdev]
  rw [if_pos (by norm_num : (0:ℝ) < 10)]
  rw [c7_mean]
  rw [show (((some (500:ℚ)).getD 0 : ℚ) : ℝ) = 500 by norm_num]
  rw [show (((100:ℚ)) : ℝ) = 100 by norm_num]
  rw [show (500:ℝ) - 100 = 400 by norm_num]
  rw [abs_of_nonneg (by norm_num : (0:ℝ) ≤ 400)]
  norm_num

/-- Claim C7: check_anomaly returns no alert while the total history
is shorter than ten; with at least ten decisions, for a
budget_approval decision carrying an amount (and positive floored
standard deviation) the deviation is the absolute distance of the
amount from the mean of the prior same-type amounts divided by the
standard deviation, floored to one tenth of the mean when fewer than
two samples exist; a decision type with zero prior occurrences scores
a fixed three halves; a deviation of at least three produces a
critical alert requiring action, at least two a warning alert, and
anything below two no alert; and the concrete guardian with ten
budget approvals near one hundred (sample standard deviation ten)
checked against amount five hundred yields the critical alert. -/
theorem C7_check_anomaly :
    (∀ (g : CognitiveGuardian) (dt : String) (a? : Option ℚ),
      g.history.length < 10 → check_anomaly g dt a? = none) ∧
    (∀ (g : CognitiveGuardian) (a : ℚ),
      historicalCount g "budget_approval" ≠ 0 →
      0 < stdevOrFloor (historical_amounts g) →
      calculate_deviation g "budget_approval" (some a) =
        specDeviation (historical_amounts g) a) ∧
    (∀ (g : CognitiveGuardian) (dt : String) (a? : Option ℚ),
      historicalCount g dt = 0 → calculate_deviation g dt a? = 3/2) ∧
    (∀ (g : CognitiveGuardian) (dt : String) (a? : Option ℚ),
      10 ≤ g.history.length →
      (3 ≤ calculate_deviation g dt a? →
        check_anomaly g dt a? = some
          { level := .critical, source := "cognitive_guardian"
            requires_action := true, deviation := calculate_deviation g dt a? }) ∧
      (2 ≤ calculate_deviation g dt a? → calculate_deviation g dt a? < 3 →
        check_anomaly g dt a? = some
          { level := .warning, source := "cognitive_guardian"
            requires_action := false, deviation := calculate_deviation g dt a? }) ∧
      (calculate_deviation g dt a? < 2 → check_anomaly g dt a? = none)) ∧
    check_anomaly c7Guardian "budget_approval" (some 500) =
      some { level := .critical, source := "cognitive_guardian"
             requires_action := true, deviation := 40 } := by
  refine ⟨?_, ?_, ?_, ?_, ?_⟩
  · intro g dt a? h
    rw [check_anomaly, if_pos h]
  · intro g a hc hs
    have hlen : (historical_amounts g).length = historicalCount g "budget_approval" := by
      rw [historical_amounts, historicalCount, List.length_map]
    have hempty : ¬ (historical_amounts g).isEmpty = true := by
      rw [List.isEmpty_iff]
      intro h
      rw [h] at hlen
      exact hc hlen.symm
    simp only [calculate_deviation]
    rw [if_neg hc, if_pos (by simp : True ∧ (some a).isSome = true), if_neg hempty,
      if_pos hs]
    rfl
  · intro g dt a? h
    simp only [calculate_deviation]
    rw [if_pos h]
  · intro g dt a? hlen
    have hnot : ¬ g.history.length < 10 := by omega
    refine ⟨?_, ?_, ?_⟩
    · intro h3
      simp only [check_anomaly]
      rw [if_neg hnot, if_pos h3]
    · intro h2 h3
      simp only [check_anomaly]
      rw [if_neg hnot, if_neg (not_le.mpr h3), if_pos h2]
    · intro h2
      simp only [check_anomaly]
      rw [if_neg hnot, if_neg (not_le.mpr (lt_of_lt_of_le h2 (by norm_num))),
        if_neg (not_le.mpr h2)]
  · simp only [check_anomaly]
    rw [if_neg (by rw [c7_histlen]; norm_num), c7_dev]
    rw [if_pos (by norm_num : (3:ℝ) ≤ 40)]

/-- A guardian with a single prior budget approval of one hundred. -/
def c7SingleGuardian : CognitiveGuardian :=
  { operator_id := "w", profile := mkProfile "w"
    history := [{ decision_type := "budget_approval", amount := some 100 }] }

/-- A guardian with ten prior decisions of an unrelated type. -/
def c7OtherGuardian : CognitiveGuardian :=
  { operator_id := "w", profile := mkProfile "w"
    history := List.replicate 10 { decision_type := "other", amount := none } }

/-- Claim C7 witness: the statement applied to concrete guardians: a
fresh guardian is below the history threshold; the single-sample
guardian takes the floored standard deviation and matches the spec
formula; a never-seen decision type scores three halves; and the
unrelated-type guardian with ten decisions and deviation zero gets no
alert. -/
theorem C7_witness :
    check_anomaly (mkGuardian "w") "budget_approval" (some 5) = none ∧
    calculate_deviation c7SingleGuardian "budget_approval" (some 300) =
      specDeviation (historical_amounts c7SingleGuardian) 300 ∧
    calculate_deviation c7SingleGuardian "novel_type" none = 3/2 ∧
    check_anomaly c7OtherGuardian "other" none = none := by
  refine ⟨?_, ?_, ?_, ?_⟩
  · exact C7_check_anomaly.1 (mkGuardian "w") "budget_approval" (some 5) (by decide)
  · refine C7_check_anomaly.2.1 c7SingleGuardian 300 (by decide) ?_
    rw [show historical_amounts c7SingleGuardian = [100] from rfl]
    rw [stdevOrFloor, if_neg (by norm_num)]
    rw [show listMean [(100:ℚ)] = 100 by norm_num [listMean]]
    norm_num
  · exact C7_check_anomaly.2.2.1 c7SingleGuardian "novel_type" none (by decide)
  · refine (C7_check_anomaly.2.2.2.1 c7OtherGuardian "other" none (by decide)).2.2 ?_
    simp only [calculate_deviation]
    rw [if_neg (by decide)]
    rw [if_neg (by simp)]
    norm_num

end AetherMCP
